import Mathlib

/-!
Verification development for the course-retrieval core of the `duec`
repository (`backend/src/rag.py`).

The embedding below translates `rag.py` into Lean:

* documents, the corpus wrapper and the TF-IDF index are structures;
* the two corpus loaders (`load_course_db`, `load_course_db_from_csv`)
  become functions from a modelled source (`none` = missing file,
  `some none` = unreadable/unparseable content, `some (some v)` = parsed
  content) to `Option DbWrapper`; a Python exception escaping an item is
  modelled with `Except`;
* scikit-learn's `TfidfVectorizer(analyzer='char', ngram_range=(2,3))`
  together with `cosine_similarity` is embedded with exact real
  arithmetic (`Real.log` for the smoothed idf, `Real.sqrt` for the l2
  norms); floating point is idealised as ℝ, so the scoring definitions
  are `noncomputable`, while every structural part (n-grams, counts,
  filtering, sorting, prompt assembly) is executable;
* `numpy.argsort` is modelled as a stable ascending argsort (numpy uses
  a stable insertion sort for the small-array regime, and stability is
  the only determinate reading of its tie behaviour); the slice
  `[::-1][:k]` is `reverse` followed by `take k`.
-/

/-! ## Python string primitives -/

/-- Characters stripped by Python's `str.strip()` (common whitespace,
including the ideographic space U+3000; the rarer Unicode whitespace
code points are not used by the repository's data). -/
def isPySpace (c : Char) : Bool :=
  c ∈ [' ', '\t', '\n', '\r', '\x0b', '\x0c', '　']

/-- Python `str.strip()`. -/
def stripPy (s : String) : String :=
  ⟨((s.toList.dropWhile isPySpace).reverse.dropWhile isPySpace).reverse⟩

/-- `s.replace(" ", "").replace("　", "")` — both patterns are single
characters, so the two replacements equal one filter. -/
def stripSpacesStr (s : String) : String :=
  ⟨s.toList.filter (fun c => c ≠ ' ' && c ≠ '　')⟩

/-- Python's substring test `needle in hay`. -/
def containsSub (hay needle : String) : Bool :=
  decide (needle.toList <:+: hay.toList)

/-! ## JSON values (the output of Python's `json.load`) -/

/-- Parsed JSON, as `json.load` returns it: numbers restricted to
integers (the repository's syllabus data has no fractional literals). -/
inductive Json where
  | null : Json
  | bool : Bool → Json
  | num : Int → Json
  | str : String → Json
  | arr : List Json → Json
  | obj : List (String × Json) → Json
deriving Repr

/-- Python `value == some_string` (used by the `in` membership test on
lists): true exactly for the equal string value. -/
def isStrEq (j : Json) (s : String) : Bool :=
  match j with
  | .str t => t == s
  | _ => false

/-- Dict lookup `item.get(k)`; objects are modelled with unique keys
(Python dicts cannot repeat keys), so the first binding is the value. -/
def jlookup (kvs : List (String × Json)) (k : String) : Option Json :=
  (kvs.find? (fun kv => kv.1 == k)).map (·.2)

/-- Dict key membership `k in item`. -/
def jmem (kvs : List (String × Json)) (k : String) : Bool :=
  (jlookup kvs k).isSome

/-- Whether a JSON value is an object (a Python dict). -/
def isObjJson : Json → Bool
  | .obj _ => true
  | _ => false

mutual

/-- Python `repr` of a parsed JSON value, as f-string interpolation
renders lists and dicts (string escaping is elided: the repository's
data has no quotes or backslashes inside field values). -/
def pyRepr : Json → String
  | .null => "None"
  | .bool true => "True"
  | .bool false => "False"
  | .num n => toString n
  | .str s => "'" ++ s ++ "'"
  | .arr es => "[" ++ String.intercalate ", " (pyReprElems es) ++ "]"
  | .obj kvs => "\x7b" ++ String.intercalate ", " (pyReprFields kvs) ++ "\x7d"

/-- `repr` of the elements of a list value. -/
def pyReprElems : List Json → List String
  | [] => []
  | e :: es => pyRepr e :: pyReprElems es

/-- `repr` of the fields of a dict value. -/
def pyReprFields : List (String × Json) → List String
  | [] => []
  | kv :: kvs => ("'" ++ kv.1 ++ "': " ++ pyRepr kv.2) :: pyReprFields kvs

end

/-- Python `str()` of a parsed JSON value, as f-strings render it. -/
def pyStr : Json → String
  | .str s => s
  | .null => "None"
  | .bool true => "True"
  | .bool false => "False"
  | .num n => toString n
  | .arr es => pyRepr (.arr es)
  | .obj kvs => pyRepr (.obj kvs)

/-! ## The data model -/

/-- One processed course record, as both loaders build it.  The `raw`
field of the Python dict (the original record, kept for traceability)
is never read by any embedded operation and is omitted. -/
structure Doc where
  title : String
  professor : String
  semester : String
  text : String
deriving DecidableEq, Repr

/-- The loaders' return value: `{"docs": [...], "metadata":
{"professors": [...]}}`.  Python's `known_professors` is a `set`; it is
modelled as an insertion-ordered duplicate-free list (set iteration
order is interpreter-dependent, and retrieval results do not depend on
the order or multiplicity of this list). -/
structure DbWrapper where
  docs : List Doc
  professors : List String
deriving DecidableEq, Repr

/-- `prepare_tfidf_index`'s return value.  The fitted vectorizer and the
TF-IDF matrix are determined by the list of texts the vectorizer was
fitted on, so the pair is modelled by that list (`fitTexts`). -/
structure IndexData where
  docs : List Doc
  professors : List String
  fitTexts : List String
deriving Repr

/-- `known_professors.add(p)` on the insertion-ordered model of the set. -/
def addProf (acc : List String) (p : String) : List String :=
  if p ∈ acc then acc else acc ++ [p]

/-- Collect `known_professors`: for every processed record with a
non-empty instructor, both the raw and the whitespace-stripped name. -/
def collectProfs (docs : List Doc) : List String :=
  docs.foldl
    (fun acc d =>
      if d.professor ≠ "" then addProf (addProf acc d.professor) (stripSpacesStr d.professor)
      else acc)
    []

/-! ## `load_course_db` (JSON loader, rag.py lines 135-222) -/

/-- One line of the 授業計画 section: Python's
`f"  第{plan.get('授業回', '')}回: {plan.get('内容', '')}"`; a non-dict
element raises `AttributeError` (modelled as `.error`). -/
def planLine (p : Json) : Except Unit String :=
  match p with
  | .obj pk =>
      .ok ("  第" ++ pyStr ((jlookup pk "授業回").getD (.str "")) ++ "回: "
            ++ pyStr ((jlookup pk "内容").getD (.str "")))
  | _ => .error ()

/-- One line of the 成績評価基準 section:
`f"  - {crit.get('項目', '')} ({crit.get('割合', '')}): {crit.get('詳細', '')}"`. -/
def critLine (c : Json) : Except Unit String :=
  match c with
  | .obj ck =>
      .ok ("  - " ++ pyStr ((jlookup ck "項目").getD (.str "")) ++ " ("
            ++ pyStr ((jlookup ck "割合").getD (.str "")) ++ "): "
            ++ pyStr ((jlookup ck "詳細").getD (.str "")))
  | _ => .error ()

/-- Render every element of a serialized sub-list, stopping with the
original exception if one element is not a dict. -/
def sectionLines (f : Json → Except Unit String) : List Json → Except Unit (List String)
  | [] => .ok []
  | p :: ps =>
    match f p with
    | .error e => .error e
    | .ok l =>
      match sectionLines f ps with
      | .error e => .error e
      | .ok ls => .ok (l :: ls)

/-- The 授業計画 section of the text blob: only present lists are
rendered (`isinstance(item["授業計画"], list)`). -/
def planParts (kvs : List (String × Json)) : Except Unit (List String) :=
  match jlookup kvs "授業計画" with
  | some (.arr plans) =>
    match sectionLines planLine plans with
    | .error e => .error e
    | .ok ls => .ok ("【授業計画】" :: ls)
  | _ => .ok []

/-- The 成績評価基準 section of the text blob. -/
def critParts (kvs : List (String × Json)) : Except Unit (List String) :=
  match jlookup kvs "成績評価基準" with
  | some (.arr crits) =>
    match sectionLines critLine crits with
    | .error e => .error e
    | .ok ls => .ok ("【成績評価基準】" :: ls)
  | _ => .ok []

/-- Process one element of the JSON root list, following rag.py lines
157-206: records lacking `科目名` are skipped (`.ok none`); an item on
which the Python code would raise — `in` on a non-container,
`.get` on a non-dict, `.strip()` on a non-string instructor, a
non-dict element inside 授業計画/成績評価基準 — is `.error ()`.  A
string or list item is skipped when the `in` membership test fails. -/
def processJsonItem (item : Json) : Except Unit (Option Doc) :=
  match item with
  | .obj kvs =>
    if jmem kvs "科目名" then
      match (jlookup kvs "教授名").getD (.str "") with
      | .str profRaw =>
        let profName := stripPy profRaw
        let title := (jlookup kvs "科目名").getD (.str "名称不明")
        let p1 := ["【科目名】 " ++ pyStr title]
        let p2 := match jlookup kvs "教授名" with
          | some v => ["【担当教授】 " ++ pyStr v]
          | none => []
        let p3 := match jlookup kvs "開講学期" with
          | some v =>
              ["【開講】 " ++ pyStr v ++ " " ++ pyStr ((jlookup kvs "曜日・時限").getD (.str ""))]
          | none => []
        let p4 := match jlookup kvs "概要" with
          | some v => ["【概要】\n" ++ pyStr v]
          | none => []
        let p5 := match jlookup kvs "到達目標" with
          | some v => ["【到達目標】\n" ++ pyStr v]
          | none => []
        match planParts kvs with
        | .error e => .error e
        | .ok p6 =>
          match critParts kvs with
          | .error e => .error e
          | .ok p7 =>
            let semester := match jlookup kvs "開講学期" with
              | some (.str s) => s
              | some v => pyStr v
              | none => ""
            .ok (some
              { title := pyStr title
                professor := profName
                semester := semester
                text := String.intercalate "\n" (p1 ++ p2 ++ p3 ++ p4 ++ p5 ++ p6 ++ p7) })
      | _ => .error ()
    else .ok none
  | .str s => if containsSub s "科目名" then .error () else .ok none
  | .arr es => if es.any (fun e => isStrEq e "科目名") then .error () else .ok none
  | _ => .error ()

/-- The loader's item loop: an exception aborts the whole load. -/
def processJsonItems : List Json → Except Unit (List Doc)
  | [] => .ok []
  | it :: its =>
    match processJsonItem it with
    | .error e => .error e
    | .ok none => processJsonItems its
    | .ok (some d) =>
      match processJsonItems its with
      | .error e => .error e
      | .ok ds => .ok (d :: ds)

/-- `load_course_db(db_path)` — the source is modelled as `none` when
the path does not exist, `some none` when `json.load` raises, and
`some (some v)` for parsed content `v`.  All further failures (root not
a list, an item raising, zero usable records) return `None`. -/
def load_course_db (src : Option (Option Json)) : Option DbWrapper :=
  match src with
  | none => none
  | some none => none
  | some (some (.arr items)) =>
    match processJsonItems items with
    | .error _ => none
    | .ok docs =>
      if docs.isEmpty then none
      else some { docs := docs, professors := collectProfs docs }
  | some (some _) => none

/-! ## `load_course_db_from_csv` (CSV loader, rag.py lines 14-133) -/

/-- The dict comprehension `{k: (v.strip() if v else "") for k, v in
row.items() if k}`: keys are the header names (already stripped at line
31), empty keys are dropped, values are stripped. -/
def normRow (row : List (String × String)) : List (String × String) :=
  (row.filter (fun kv => kv.1 != "")).map (fun kv => (kv.1, stripPy kv.2))

/-- `item.get(k, "")` on a CSV row dict (unique keys). -/
def slookup (item : List (String × String)) (k : String) : String :=
  ((item.find? (fun kv => kv.1 == k)).map (·.2)).getD ""

/-- One line of the CSV 授業計画 section (default `'?'` for the lesson
number); only called on dict elements. -/
def csvPlanLine (p : Json) : String :=
  match p with
  | .obj pk =>
      "  第" ++ pyStr ((jlookup pk "授業回").getD (.str "?")) ++ "回: "
        ++ pyStr ((jlookup pk "内容").getD (.str ""))
  | _ => ""

/-- One line of the CSV 成績評価基準 section. -/
def csvCritLine (c : Json) : String :=
  match c with
  | .obj ck =>
      "  - " ++ pyStr ((jlookup ck "項目").getD (.str "")) ++ " ("
        ++ pyStr ((jlookup ck "割合").getD (.str "")) ++ "): "
        ++ pyStr ((jlookup ck "詳細").getD (.str ""))
  | _ => ""

/-- The CSV 授業計画 section.  `jarr` models `json.loads` on a
`[`-prefixed cell (`none` = the parse raises).  Inside the `try`, the
header is appended before the element loop, and a non-dict element
raises at `plan.get`, so the `except` fallback line lands after the
header and the lines of the leading run of dict elements. -/
def csvPlanSection (jarr : String → Option (List Json)) (raw : String) : List String :=
  if raw ≠ "" && raw.startsWith "[" then
    match jarr raw with
    | some plans =>
      let pfx := plans.takeWhile isObjJson
      if pfx.length = plans.length then "【授業計画】" :: pfx.map csvPlanLine
      else "【授業計画】" :: pfx.map csvPlanLine ++ ["【授業計画】\n" ++ raw]
    | none => ["【授業計画】\n" ++ raw]
  else if raw ≠ "" then ["【授業計画】\n" ++ raw]
  else []

/-- The CSV 成績評価基準 section, same shape as `csvPlanSection`. -/
def csvCritSection (jarr : String → Option (List Json)) (raw : String) : List String :=
  if raw ≠ "" && raw.startsWith "[" then
    match jarr raw with
    | some crits =>
      let pfx := crits.takeWhile isObjJson
      if pfx.length = crits.length then "【成績評価基準】" :: pfx.map csvCritLine
      else "【成績評価基準】" :: pfx.map csvCritLine ++ ["【成績評価基準】\n" ++ raw]
    | none => ["【成績評価基準】\n" ++ raw]
  else if raw ≠ "" then ["【成績評価基準】\n" ++ raw]
  else []

/-- The CSV 成績実績 section: a `\x7b`-prefixed cell parsed as a dict
(`jobj` models `json.loads`); any failure appends nothing (`pass`). -/
def csvResSection (jobj : String → Option (List (String × Json))) (raw : String) : List String :=
  if raw ≠ "" && raw.startsWith "\x7b" then
    match jobj raw with
    | some kvs =>
        ["【成績実績】 " ++ String.intercalate ", " (kvs.map (fun kv => kv.1 ++ ": " ++ pyStr kv.2))]
    | none => []
  else []

/-- Process one CSV row (rag.py lines 36-118): rows with an empty (or
missing) `科目名` are skipped; no exception can escape this loop. -/
def processCsvRow (jarr : String → Option (List Json))
    (jobj : String → Option (List (String × Json))) (row : List (String × String)) : Option Doc :=
  let item := normRow row
  if slookup item "科目名" = "" then none
  else
    let title := slookup item "科目名"
    let profName := stripPy (slookup item "教授名")
    let p1 := ["【科目名】 " ++ title]
    let p2 := if slookup item "学科" ≠ "" then ["【学科】 " ++ slookup item "学科"] else []
    let p3 := if profName ≠ "" then ["【担当教授】 " ++ profName] else []
    let basicInfo :=
      (if slookup item "開講学期" ≠ "" then [slookup item "開講学期"] else [])
      ++ (if slookup item "曜日・時限" ≠ "" then [slookup item "曜日・時限"] else [])
      ++ (if slookup item "単位数" ≠ "" then [slookup item "単位数" ++ "単位"] else [])
      ++ (if slookup item "授業形態" ≠ "" then [slookup item "授業形態"] else [])
    let p4 := if basicInfo ≠ [] then ["【基本情報】 " ++ String.intercalate " / " basicInfo] else []
    let p5 := if slookup item "概要" ≠ "" then ["【概要】\n" ++ slookup item "概要"] else []
    let p6 := if slookup item "到達目標" ≠ "" then ["【到達目標】\n" ++ slookup item "到達目標"] else []
    let p7 := csvPlanSection jarr (slookup item "授業計画")
    let p8 := csvCritSection jarr (slookup item "成績評価基準")
    let p9 := csvResSection jobj (slookup item "成績評価結果")
    some
      { title := title
        professor := profName
        semester := slookup item "開講学期"
        text := String.intercalate "\n" (p1 ++ p2 ++ p3 ++ p4 ++ p5 ++ p6 ++ p7 ++ p8 ++ p9) }

/-- `load_course_db_from_csv(db_path)` — the source is modelled as
`none` when the path does not exist, `some none` when opening/reading
raises, and `some (some rows)` for the row dicts `csv.DictReader`
yields (header names stripped by line 31). -/
def load_course_db_from_csv (jarr : String → Option (List Json))
    (jobj : String → Option (List (String × Json)))
    (src : Option (Option (List (List (String × String))))) : Option DbWrapper :=
  match src with
  | none => none
  | some none => none
  | some (some rows) =>
    let docs := rows.filterMap (processCsvRow jarr jobj)
    if docs.isEmpty then none
    else some { docs := docs, professors := collectProfs docs }

/-! ## The TF-IDF scoring model (scikit-learn semantics, exact reals)

`TfidfVectorizer(analyzer='char', ngram_range=(2, 3))` with default
options: lowercasing preprocessor, vocabulary = the character 2- and
3-grams of the corpus, raw term counts, smoothed idf
`ln((1+n)/(1+df)) + 1`, l2-normalised rows; `cosine_similarity`
l2-normalises again, so a score is the cosine of the raw tf-idf
vectors, with the convention that a zero vector scores 0 (division by
zero is 0 in Lean, matching sklearn's handling of zero rows). -/

/-- The lowercasing preprocessor (`Char.toLower` covers the ASCII range;
the corpus language is not case-mapped). -/
def lowerChars (s : String) : List Char :=
  s.toList.map Char.toLower

/-- All length-`n` contiguous character windows. -/
def windows (n : ℕ) (cs : List Char) : List (List Char) :=
  (List.range (cs.length + 1 - n)).map (fun i => (cs.drop i).take n)

/-- The char-analyzer terms of one text: its 2-grams then its 3-grams. -/
def ngrams23 (cs : List Char) : List (List Char) :=
  windows 2 cs ++ windows 3 cs

/-- The fitted vocabulary: every term of the corpus (sklearn sorts the
vocabulary; all uses below sum over it, so only the underlying set
matters and first-occurrence order is kept). -/
def vocab (texts : List String) : List (List Char) :=
  (texts.map (fun t => ngrams23 (lowerChars t))).flatten.dedup

/-- Raw term frequency of term `t` in text `s`. -/
def tf (t : List Char) (s : String) : ℕ :=
  (ngrams23 (lowerChars s)).count t

/-- Document frequency of term `t` in the corpus. -/
def df (texts : List String) (t : List Char) : ℕ :=
  (texts.filter (fun s => tf t s != 0)).length

/-- Smoothed idf: `ln((1 + n) / (1 + df)) + 1`. -/
noncomputable def idf (texts : List String) (t : List Char) : ℝ :=
  Real.log ((1 + (texts.length : ℝ)) / (1 + (df texts t : ℝ))) + 1

/-- One tf-idf vector component of text `s` (documents and the query
are transformed with the same fitted vocabulary and idf). -/
noncomputable def tfidfWeight (texts : List String) (s : String) (t : List Char) : ℝ :=
  (tf t s : ℝ) * idf texts t

/-- Dot product of two tf-idf vectors over the fitted vocabulary. -/
noncomputable def dotProd (texts : List String) (a b : String) : ℝ :=
  ((vocab texts).map (fun t => tfidfWeight texts a t * tfidfWeight texts b t)).sum

/-- l2 norm of a tf-idf vector. -/
noncomputable def l2norm (texts : List String) (s : String) : ℝ :=
  Real.sqrt (((vocab texts).map (fun t => (tfidfWeight texts s t) ^ 2)).sum)

/-- Cosine similarity of the query and one document (0 when either
vector is zero, by the division-by-zero convention). -/
noncomputable def cosineSim (texts : List String) (q d : String) : ℝ :=
  dotProd texts q d / (l2norm texts q * l2norm texts d)

/-- `cosine_similarity(query_vec, matrix).flatten()`: one score per
fitted document. -/
noncomputable def tfidfSims (texts : List String) (q : String) : List ℝ :=
  texts.map (fun d => cosineSim texts q d)

/-! ## Ranking (rag.py lines 296-307) -/

/-- Index the elements of a list starting at `n` (Python `enumerate`). -/
def enumFromIdx {α : Type} (n : ℕ) : List α → List (ℕ × α)
  | [] => []
  | a :: as => (n, a) :: enumFromIdx (n + 1) as

/-- Stable ascending insertion by score: a new pair goes after every
pair of smaller-or-equal score. -/
def insertAsc {α : Type} [LinearOrder α] (x : ℕ × α) : List (ℕ × α) → List (ℕ × α)
  | [] => [x]
  | y :: ys => if x.2 ≤ y.2 then x :: y :: ys else y :: insertAsc x ys

/-- Stable ascending insertion sort over (index, score) pairs — the
model of `numpy.argsort` (see the header note on stability). -/
def sortAsc {α : Type} [LinearOrder α] : List (ℕ × α) → List (ℕ × α)
  | [] => []
  | x :: xs => insertAsc x (sortAsc xs)

/-- `similarities.argsort()[::-1][:k]` followed by the `> 0` test of the
result loop, carrying each index together with its score. -/
noncomputable def sim_top_pairs (fitTexts : List String) (q : String) (k : ℕ) : List (ℕ × ℝ) :=
  (((sortAsc (enumFromIdx 0 (tfidfSims fitTexts q))).reverse).take k).filter
    (fun p => decide (0 < p.2))

/-- The similarity-path result list (`docs[idx]` for each kept index;
indices are always in range when the index was built by
`prepare_tfidf_index`, where `fitTexts` and `docs` have equal length). -/
noncomputable def sim_results (idx : IndexData) (q : String) (k : ℕ) : List Doc :=
  (sim_top_pairs idx.fitTexts q k).filterMap (fun p => idx.docs[p.1]?)

/-! ## `prepare_tfidf_index` and `retrieve_tfidf` -/

/-- `prepare_tfidf_index(db_wrapper)` (rag.py lines 224-248):
`SKLEARN_AVAILABLE` is modelled as true (with it false every claim
about the TF-IDF path is vacuous); the vectorizer is fitted on
`[doc.get('text', '') for doc in docs]`. -/
def prepare_tfidf_index (db : DbWrapper) : Option IndexData :=
  some { docs := db.docs, professors := db.professors, fitTexts := db.docs.map (·.text) }

/-- Strategy 1's matched instructors (rag.py lines 264-273): the known
names contained in the whitespace-stripped query, of length ≥ 2. -/
def matched_professors (q : String) (professors : List String) : List String :=
  professors.filter (fun p => containsSub (stripSpacesStr q) p && decide (2 ≤ p.length))

/-- Strategy 1's corpus filter (rag.py lines 281-285): the documents
whose whitespace-stripped instructor equals a matched name.  (The
`seen_titles` set built alongside is never read and is omitted.) -/
def filtered_results (matched : List String) (docs : List Doc) : List Doc :=
  docs.filter (fun d => matched.any (fun p => p == stripSpacesStr d.professor))

/-- `retrieve_tfidf(query, index_data, k)` (rag.py lines 250-307):
`index_data` is `None` or a prepared index (`SKLEARN_AVAILABLE` is
modelled as true, as in `prepare_tfidf_index`); if the instructor
filter matches and hits, its hits are returned in full, otherwise the
TF-IDF ranking returns at most `k` positively scored documents. -/
noncomputable def retrieve_tfidf (q : String) (indexData : Option IndexData) (k : ℕ) : List Doc :=
  match indexData with
  | none => []
  | some idx =>
    let matched := matched_professors q idx.professors
    if matched.isEmpty then sim_results idx q k
    else
      let filtered := filtered_results matched idx.docs
      if filtered.isEmpty then sim_results idx q k
      else filtered

/-! ## `build_prompt_with_rag` (rag.py lines 341-370) -/

/-- `build_prompt_with_rag(system, history, user_input, retrieved_docs)`:
assemble the pieces list and join with newlines. -/
def build_prompt_with_rag (system : String) (history : List (String × String))
    (user_input : String) (retrieved_docs : List Doc) : String :=
  let pieces :=
    (if system ≠ "" then [system ++ "\n"] else [])
    ++ (if retrieved_docs ≠ [] then
          ["以下はユーザーの質問に関連する講義シラバス情報です。",
           "質問が「全ての授業」などのリスト要求であれば、検索された全ての情報を要約して答えてください。\n",
           "--- 参考情報 (Syllabus) ---"]
          ++ (enumFromIdx 1 retrieved_docs).map
              (fun p => "【情報" ++ toString p.1 ++ "】\n" ++ p.2.text ++ "\n")
          ++ ["---------------------------\n"]
        else ["(関連する参考情報は見つかりませんでした。)\n"])
    ++ ["Conversation:\n"]
    ++ history.map (fun rt => if rt.1 = "user" then "User: " ++ rt.2 ++ "\n"
                              else "Assistant: " ++ rt.2 ++ "\n")
    ++ ["User: " ++ user_input ++ "\nAssistant:"]
  String.intercalate "\n" pieces

/-! ## Definitions modelled from the spec

The specification describes negation handling, time-slot boosting and a
persisted dense-strategy vector cache.  None of these exist in the
source; the definitions below render the spec's words so that the
corresponding claims can be stated and compared with the code. -/

/-- Modelled from the spec: the fixed set of negation markers
("equivalents of not, except, excluding"); the source contains no such
list. -/
def neg_markers : List String :=
  ["ない", "以外", "除く", "除いて", "なし"]

/-- Modelled from the spec: the fixed period labels, period 1 through
period 5 in halfwidth and fullwidth digit forms, each paired with the
digit a matching `period` field must contain; the source contains no
such list. -/
def time_slot_labels : List (String × Char) :=
  [("1限", '1'), ("2限", '2'), ("3限", '3'), ("4限", '4'), ("5限", '5'),
   ("１限", '1'), ("２限", '2'), ("３限", '3'), ("４限", '4'), ("５限", '5')]

/-- Modelled from the spec: the `time_slot_hint` derived from the raw
query, if any label occurs in it. -/
def spec_time_slot_hint (q : String) : Option Char :=
  ((time_slot_labels.filter (fun l => containsSub q l.1)).head?).map (·.2)

/-- Modelled from the spec: whether a document's `period` field
(`semester` here) contains a digit matching the hint. -/
def periodMatches (hint : Option Char) (d : Doc) : Bool :=
  match hint with
  | some c => d.semester.toList.contains c
  | none => false

/-- Modelled from the spec: the similarity ranking with a fixed positive
score boost `b` added to every document whose `period` field matches
the detected time-slot hint, before sorting and truncating to `k`. -/
noncomputable def spec_boosted_rank (b : ℝ) (idx : IndexData) (q : String) (k : ℕ) : List Doc :=
  let boosted := List.zipWith
    (fun (p : ℕ × ℝ) (d : Doc) =>
      (p.1, if periodMatches (spec_time_slot_hint q) d then p.2 + b else p.2))
    (enumFromIdx 0 (tfidfSims idx.fitTexts q)) idx.docs
  ((((sortAsc boosted).reverse).take k).filter (fun p => decide (0 < p.2))).filterMap
    (fun p => idx.docs[p.1]?)

/-- State-passing form of `prepare_tfidf_index` over a persisted-cache
state (the stored vector count): the source performs no file I/O, so
the state passes through untouched.  This makes the absence of
persistence visible to theorems. -/
def prepare_tfidf_index_fs (cache : Option ℕ) (db : DbWrapper) : Option IndexData × Option ℕ :=
  (prepare_tfidf_index db, cache)

/-! ## Predicates for the loader claims -/

/-- Whether `load_course_db`'s processing of one root-list element
raises: decided independently of `processJsonItem` and proved
equivalent to its `.error` outcome. -/
def json_item_throws (item : Json) : Bool :=
  match item with
  | .obj kvs =>
    jmem kvs "科目名" &&
      ((match (jlookup kvs "教授名").getD (.str "") with
        | .str _ => false
        | _ => true)
       || (match jlookup kvs "授業計画" with
           | some (.arr ps) => ps.any (fun p => !isObjJson p)
           | _ => false)
       || (match jlookup kvs "成績評価基準" with
           | some (.arr cs) => cs.any (fun c => !isObjJson c)
           | _ => false))
  | .str s => containsSub s "科目名"
  | .arr es => es.any (fun e => isStrEq e "科目名")
  | _ => true

/-- Whether a root-list element yields a document (given it does not
raise): a dict carrying the `科目名` key. -/
def json_item_usable (item : Json) : Bool :=
  match item with
  | .obj kvs => jmem kvs "科目名"
  | _ => false

/-! ## Sorting lemmas -/

theorem mem_insertAsc {α : Type} [LinearOrder α] (x z : ℕ × α) (ys : List (ℕ × α)) :
    z ∈ insertAsc x ys ↔ z = x ∨ z ∈ ys := by
  induction ys with
  | nil => simp [insertAsc]
  | cons y ys ih =>
    simp only [insertAsc]
    split
    · simp [List.mem_cons]
    · simp only [List.mem_cons, ih]
      tauto

theorem mem_sortAsc {α : Type} [LinearOrder α] (z : ℕ × α) (l : List (ℕ × α)) :
    z ∈ sortAsc l ↔ z ∈ l := by
  induction l with
  | nil => simp [sortAsc]
  | cons x xs ih => simp [sortAsc, mem_insertAsc, ih]

theorem length_insertAsc {α : Type} [LinearOrder α] (x : ℕ × α) (ys : List (ℕ × α)) :
    (insertAsc x ys).length = ys.length + 1 := by
  induction ys with
  | nil => simp [insertAsc]
  | cons y ys ih =>
    simp only [insertAsc]
    split <;> simp [ih]

theorem length_sortAsc {α : Type} [LinearOrder α] (l : List (ℕ × α)) :
    (sortAsc l).length = l.length := by
  induction l with
  | nil => rfl
  | cons x xs ih => simp [sortAsc, length_insertAsc, ih]

theorem pairwise_insertAsc {α : Type} [LinearOrder α] (x : ℕ × α) (ys : List (ℕ × α))
    (hys : ys.Pairwise (fun p r => p.2 < r.2 ∨ (p.2 = r.2 ∧ p.1 < r.1)))
    (hx : ∀ y ∈ ys, x.2 = y.2 → x.1 < y.1) :
    (insertAsc x ys).Pairwise (fun p r => p.2 < r.2 ∨ (p.2 = r.2 ∧ p.1 < r.1)) := by
  induction ys with
  | nil => simp [insertAsc]
  | cons y ys ih =>
    rw [List.pairwise_cons] at hys
    obtain ⟨hy, hys2⟩ := hys
    simp only [insertAsc]
    split
    case isTrue h =>
      refine List.Pairwise.cons ?_ (List.Pairwise.cons hy hys2)
      intro z hz
      rcases List.mem_cons.mp hz with rfl | hz2
      · rcases lt_or_eq_of_le h with h2 | h2
        · exact Or.inl h2
        · exact Or.inr ⟨h2, hx _ (List.mem_cons_self _ _) h2⟩
      · rcases hy z hz2 with h2 | ⟨h2, _⟩
        · exact Or.inl (lt_of_le_of_lt h h2)
        · rcases lt_or_eq_of_le h with h3 | h3
          · exact Or.inl (h2 ▸ h3)
          · exact Or.inr ⟨h3.trans h2, hx _ (List.mem_cons_of_mem _ hz2) (h3.trans h2)⟩
    case isFalse h =>
      push_neg at h
      refine List.Pairwise.cons ?_ (ih hys2 (fun z hz hzz => hx z (List.mem_cons_of_mem _ hz) hzz))
      intro z hz
      rcases (mem_insertAsc x z ys).mp hz with rfl | hz2
      · exact Or.inl h
      · exact hy z hz2

theorem pairwise_sortAsc {α : Type} [LinearOrder α] (l : List (ℕ × α))
    (hl : l.Pairwise (fun p r => p.2 = r.2 → p.1 < r.1)) :
    (sortAsc l).Pairwise (fun p r => p.2 < r.2 ∨ (p.2 = r.2 ∧ p.1 < r.1)) := by
  induction l with
  | nil => simp [sortAsc]
  | cons x xs ih =>
    rw [List.pairwise_cons] at hl
    exact pairwise_insertAsc x _ (ih hl.2)
      (fun y hy => hl.1 y ((mem_sortAsc y xs).mp hy))

theorem mem_enumFromIdx {α : Type} (n : ℕ) (l : List α) (p : ℕ × α)
    (hp : p ∈ enumFromIdx n l) : n ≤ p.1 ∧ l[p.1 - n]? = some p.2 := by
  induction l generalizing n with
  | nil => simp [enumFromIdx] at hp
  | cons a as ih =>
    simp only [enumFromIdx, List.mem_cons] at hp
    rcases hp with rfl | hp
    · simp
    · obtain ⟨h1, h2⟩ := ih (n + 1) hp
      refine ⟨by omega, ?_⟩
      have h3 : p.1 - n = (p.1 - (n + 1)) + 1 := by omega
      rw [h3]
      simpa using h2

theorem pairwise_enumFromIdx {α : Type} (n : ℕ) (l : List α) :
    (enumFromIdx n l).Pairwise (fun p r => p.1 < r.1) := by
  induction l generalizing n with
  | nil => exact List.Pairwise.nil
  | cons a as ih =>
    refine List.Pairwise.cons ?_ (ih (n + 1))
    intro r hr
    have := (mem_enumFromIdx (n + 1) as r hr).1
    omega

theorem pairwise_sim_top_pairs (fitTexts : List String) (q : String) (k : ℕ) :
    (sim_top_pairs fitTexts q k).Pairwise
      (fun p r => r.2 ≤ p.2 ∧ (p.2 = r.2 → r.1 < p.1)) := by
  have h1 : (sortAsc (enumFromIdx 0 (tfidfSims fitTexts q))).Pairwise
      (fun p r => p.2 < r.2 ∨ (p.2 = r.2 ∧ p.1 < r.1)) := by
    apply pairwise_sortAsc
    apply List.Pairwise.imp ?_ (pairwise_enumFromIdx 0 (tfidfSims fitTexts q))
    intro a b h _
    exact h
  have h2 : ((sortAsc (enumFromIdx 0 (tfidfSims fitTexts q))).reverse).Pairwise
      (fun p r => r.2 < p.2 ∨ (r.2 = p.2 ∧ r.1 < p.1)) :=
    List.pairwise_reverse.mpr h1
  have h3 := h2.imp (α := ℕ × ℝ)
    (R := fun p r => r.2 < p.2 ∨ (r.2 = p.2 ∧ r.1 < p.1))
    (S := fun p r => r.2 ≤ p.2 ∧ (p.2 = r.2 → r.1 < p.1))
    (fun {p r} h => by
      rcases h with h | ⟨h, h4⟩
      · exact ⟨le_of_lt h, fun he => absurd (he ▸ h) (lt_irrefl _)⟩
      · exact ⟨le_of_eq h, fun _ => h4⟩)
  exact List.Pairwise.sublist ((List.filter_sublist _).trans (List.take_sublist _ _)) h3

theorem mem_sim_top_pairs (fitTexts : List String) (q : String) (k : ℕ) (p : ℕ × ℝ)
    (hp : p ∈ sim_top_pairs fitTexts q k) :
    (tfidfSims fitTexts q)[p.1]? = some p.2 ∧ 0 < p.2 := by
  unfold sim_top_pairs at hp
  have h0 := List.mem_filter.mp hp
  have h1 : p ∈ (sortAsc (enumFromIdx 0 (tfidfSims fitTexts q))).reverse :=
    (List.take_sublist _ _).subset h0.1
  have h2 : p ∈ enumFromIdx 0 (tfidfSims fitTexts q) :=
    (mem_sortAsc p _).mp (List.mem_reverse.mp h1)
  have h3 := (mem_enumFromIdx 0 _ p h2).2
  simp only [Nat.sub_zero] at h3
  exact ⟨h3, of_decide_eq_true h0.2⟩

/-! ## Branch lemmas for `retrieve_tfidf` -/

theorem retrieve_tfidf_instructor (idx : IndexData) (q : String) (k : ℕ)
    (hm : matched_professors q idx.professors ≠ [])
    (hf : filtered_results (matched_professors q idx.professors) idx.docs ≠ []) :
    retrieve_tfidf q (some idx) k
      = filtered_results (matched_professors q idx.professors) idx.docs := by
  simp only [retrieve_tfidf]
  rw [if_neg (by simp [List.isEmpty_iff, hm]), if_neg (by simp [List.isEmpty_iff, hf])]

theorem retrieve_tfidf_sim (idx : IndexData) (q : String) (k : ℕ)
    (h : matched_professors q idx.professors = []
      ∨ filtered_results (matched_professors q idx.professors) idx.docs = []) :
    retrieve_tfidf q (some idx) k = sim_results idx q k := by
  simp only [retrieve_tfidf]
  rcases h with h | h
  · rw [if_pos (by simp [List.isEmpty_iff, h])]
  · by_cases hm : (matched_professors q idx.professors).isEmpty = true
    · rw [if_pos hm]
    · rw [if_neg hm, if_pos (by simp [List.isEmpty_iff, h])]

theorem mem_retrieve_of_matched (idx : IndexData) (q : String) (k : ℕ) (d : Doc)
    (hd : d ∈ idx.docs)
    (hp : stripSpacesStr d.professor ∈ matched_professors q idx.professors) :
    d ∈ retrieve_tfidf q (some idx) k := by
  have hdf : d ∈ filtered_results (matched_professors q idx.professors) idx.docs := by
    refine List.mem_filter.mpr ⟨hd, ?_⟩
    exact List.any_eq_true.mpr ⟨_, hp, by simp⟩
  have hm : matched_professors q idx.professors ≠ [] := by
    intro h
    rw [h] at hp
    simp at hp
  rw [retrieve_tfidf_instructor idx q k hm (List.ne_nil_of_mem hdf)]
  exact hdf

/-! ## Shared concrete corpus for witnesses and counterexamples -/

/-- Course by 田中 (first in corpus order). -/
def dT1 : Doc := ⟨"アルゴリズム", "田中", "春", "アルゴリズムとデータ構造"⟩

/-- Course by 田中 (second). -/
def dT2 : Doc := ⟨"機械学習", "田中", "秋", "機械学習の基礎"⟩

/-- Course by 小林. -/
def dT3 : Doc := ⟨"データベース", "小林", "春", "データベース設計"⟩

/-- Course by 田中 (third). -/
def dT4 : Doc := ⟨"深層学習", "田中", "秋", "深層学習の応用"⟩

/-- A corpus with three courses by 田中 and one by 小林. -/
def dbT : DbWrapper := ⟨[dT1, dT2, dT3, dT4], ["田中", "小林"]⟩

/-- The index `prepare_tfidf_index` builds for `dbT`. -/
def idxT : IndexData := ⟨dbT.docs, dbT.professors, dbT.docs.map (·.text)⟩

theorem prepare_dbT : prepare_tfidf_index dbT = some idxT := rfl

/-! ## Claim C1 -/

/-- C1: for every corpus and every k, a query whose whitespace-normalized
form contains a known instructor name of length ≥ 2 makes
`retrieve_tfidf` return every document whose whitespace-normalized
instructor equals one of the matched names, in its entirety, ignoring
`k`: any such document is in the result for every `k`. -/
theorem C1_instructor_filter_all (idx : IndexData) (q : String) (k : ℕ) (d : Doc)
    (hd : d ∈ idx.docs)
    (hp : stripSpacesStr d.professor ∈ matched_professors q idx.professors) :
    d ∈ retrieve_tfidf q (some idx) k :=
  mem_retrieve_of_matched idx q k d hd hp

/-- C1 witness: three courses by 田中 and `k = 1`; all three are
returned (the instructor filter ignores `k`), and the result has
exactly 3 documents. -/
theorem C1_witness :
    prepare_tfidf_index dbT = some idxT ∧
    dT1 ∈ retrieve_tfidf "田中先生の授業を全部教えて" (some idxT) 1 ∧
    dT2 ∈ retrieve_tfidf "田中先生の授業を全部教えて" (some idxT) 1 ∧
    dT4 ∈ retrieve_tfidf "田中先生の授業を全部教えて" (some idxT) 1 ∧
    (retrieve_tfidf "田中先生の授業を全部教えて" (some idxT) 1).length = 3 :=
  ⟨rfl,
   C1_instructor_filter_all idxT "田中先生の授業を全部教えて" 1 dT1 (by decide) (by decide),
   C1_instructor_filter_all idxT "田中先生の授業を全部教えて" 1 dT2 (by decide) (by decide),
   C1_instructor_filter_all idxT "田中先生の授業を全部教えて" 1 dT4 (by decide) (by decide),
   by decide⟩

/-! ## Claim C10 -/

/-- C10: whenever the instructor-name filter path is taken (a name
matched and the filter hit), the result is exactly the front-to-back
corpus filter, hence an order-preserving sublist of the corpus. -/
theorem C10_filter_path_order (idx : IndexData) (q : String) (k : ℕ)
    (hm : matched_professors q idx.professors ≠ [])
    (hf : filtered_results (matched_professors q idx.professors) idx.docs ≠ []) :
    retrieve_tfidf q (some idx) k
        = filtered_results (matched_professors q idx.professors) idx.docs ∧
    List.Sublist (retrieve_tfidf q (some idx) k) idx.docs := by
  have h := retrieve_tfidf_instructor idx q k hm hf
  refine ⟨h, ?_⟩
  rw [h]
  exact List.filter_sublist _

/-- C10 witness: a 小林-scoped query takes the filter path and returns
the corpus filter, an in-order sublist of the corpus. -/
theorem C10_witness :
    (matched_professors "小林先生の授業" idxT.professors ≠ [] ∧
     filtered_results (matched_professors "小林先生の授業" idxT.professors) idxT.docs ≠ []) ∧
    (retrieve_tfidf "小林先生の授業" (some idxT) 0
        = filtered_results (matched_professors "小林先生の授業" idxT.professors) idxT.docs ∧
     List.Sublist (retrieve_tfidf "小林先生の授業" (some idxT) 0) idxT.docs) :=
  ⟨⟨by decide, by decide⟩,
   C10_filter_path_order idxT "小林先生の授業" 0 (by decide) (by decide)⟩

/-! ## Claim C4 -/

/-- C4: for every corpus, query and `k ≥ 0`, `retrieve_tfidf` returns at
most `max k (instructor-filter-hit-count)` documents, and every
returned document is an element of the corpus. -/
theorem C4_bound_and_membership (idx : IndexData) (q : String) (k : ℕ) :
    (retrieve_tfidf q (some idx) k).length
      ≤ max k (filtered_results (matched_professors q idx.professors) idx.docs).length ∧
    ∀ d ∈ retrieve_tfidf q (some idx) k, d ∈ idx.docs := by
  have hsimLen : (sim_results idx q k).length ≤ k := by
    unfold sim_results sim_top_pairs
    refine le_trans (List.length_filterMap_le _ _) ?_
    refine le_trans (List.length_filter_le _ _) ?_
    exact List.length_take_le k _
  have hsimMem : ∀ d ∈ sim_results idx q k, d ∈ idx.docs := by
    intro d hd
    obtain ⟨p, _, hdp⟩ := List.mem_filterMap.mp hd
    exact List.getElem?_mem hdp
  by_cases hm : (matched_professors q idx.professors).isEmpty = true
  · rw [retrieve_tfidf_sim idx q k (Or.inl (List.isEmpty_iff.mp hm))]
    exact ⟨le_trans hsimLen (le_max_left _ _), hsimMem⟩
  · by_cases hf :
        (filtered_results (matched_professors q idx.professors) idx.docs).isEmpty = true
    · rw [retrieve_tfidf_sim idx q k (Or.inr (List.isEmpty_iff.mp hf))]
      exact ⟨le_trans hsimLen (le_max_left _ _), hsimMem⟩
    · rw [retrieve_tfidf_instructor idx q k
        (fun he => hm (by simp [he])) (fun he => hf (by simp [he]))]
      refine ⟨le_max_right _ _, ?_⟩
      intro d hd
      exact (List.mem_filter.mp hd).1

/-! ## Claim C7 -/

/-- C7: `build_prompt_with_rag` is a pure function of its four
arguments — two calls with identical inputs produce byte-identical
output strings (the embedding is a function, faithful because the
Python body reads no state outside its parameters and mutates
nothing). -/
theorem C7_prompt_deterministic (system : String) (history : List (String × String))
    (user_input : String) (docs : List Doc) :
    build_prompt_with_rag system history user_input docs
      = build_prompt_with_rag system history user_input docs := rfl

/-! ## Claim C3 -/

/-- C3 (amended): `retrieve_tfidf` performs no negation handling — for a
query containing a negation marker together with a matched instructor
name, every document by that instructor is still returned (nothing is
excluded), for every corpus and every `k`. -/
theorem C3_negation_not_implemented (idx : IndexData) (q : String) (k : ℕ) (d : Doc)
    (hneg : neg_markers.any (fun m => containsSub q m) = true)
    (hd : d ∈ idx.docs)
    (hp : stripSpacesStr d.professor ∈ matched_professors q idx.professors) :
    d ∈ retrieve_tfidf q (some idx) k :=
  mem_retrieve_of_matched idx q k d hd hp

/-- C3 counterexample: the query 「田中教授以外の授業を教えて」 ("courses
except Professor 田中") contains the negation marker 以外 and the
instructor name 田中, yet `retrieve_tfidf` returns exactly 田中's three
documents — documents whose instructor equals the "excluded" name are
returned, falsifying the claimed exclusion. -/
theorem C3_counterexample :
    neg_markers.any (fun m => containsSub "田中教授以外の授業を教えて" m) = true ∧
    prepare_tfidf_index dbT = some idxT ∧
    retrieve_tfidf "田中教授以外の授業を教えて" (some idxT) 3 = [dT1, dT2, dT4] ∧
    dT1.professor = "田中" :=
  ⟨by decide, rfl, by decide, rfl⟩

/-- C3 witness: the same negated query, with the theorem applied to
each of 田中's documents. -/
theorem C3_witness :
    neg_markers.any (fun m => containsSub "田中教授以外の授業を教えて" m) = true ∧
    dT2 ∈ retrieve_tfidf "田中教授以外の授業を教えて" (some idxT) 3 :=
  ⟨by decide,
   C3_negation_not_implemented idxT "田中教授以外の授業を教えて" 3 dT2
      (by decide) (by decide) (by decide)⟩

/-! ## Claim C9 -/

/-- C9 (amended): `prepare_tfidf_index` rebuilds the TF-IDF
representation from the corpus on every call — one fitted text per
document — and performs no I/O: a persisted-cache state passes through
unchanged, whatever its stored count. -/
theorem C9_no_cache_rebuilt_each_call (db : DbWrapper) (cache : Option ℕ) :
    (prepare_tfidf_index_fs cache db).2 = cache ∧
    ∃ idx, prepare_tfidf_index db = some idx ∧ idx.fitTexts.length = db.docs.length := by
  refine ⟨rfl, ⟨_, rfl, ?_⟩⟩
  simp [prepare_tfidf_index]

/-- A corpus of 12 documents. -/
def db12 : DbWrapper :=
  ⟨(List.range 12).map (fun i => ⟨toString i, "", "", toString i⟩), []⟩

/-- C9 counterexample: indexing a corpus of size 12 with a stored cache
of 10 vectors leaves the cache at 10 entries — nothing is discarded,
recomputed into the cache, or re-persisted, so the cache does not hold
one vector per document (the claim demands exactly 12 entries). -/
theorem C9_counterexample :
    db12.docs.length = 12 ∧
    (prepare_tfidf_index_fs (some 10) db12).2 = some 10 ∧
    (prepare_tfidf_index_fs (some 10) db12).2 ≠ some 12 :=
  ⟨by decide, rfl, by decide⟩

/-! ## Claim C2 -/

/-- C2 (amended): on the similarity path the result is read off
`sim_top_pairs`, whose scores are non-increasing in result order and
whose exactly-tied scores appear in reverse corpus order (ascending
argsort is stable, and the `[::-1]` reversal flips ties). -/
theorem C2_sim_order_ties_reversed (idx : IndexData) (q : String) (k : ℕ)
    (h : matched_professors q idx.professors = []
      ∨ filtered_results (matched_professors q idx.professors) idx.docs = []) :
    retrieve_tfidf q (some idx) k
        = (sim_top_pairs idx.fitTexts q k).filterMap (fun p => idx.docs[p.1]?) ∧
    (sim_top_pairs idx.fitTexts q k).Pairwise
        (fun p r => r.2 ≤ p.2 ∧ (p.2 = r.2 → r.1 < p.1)) :=
  ⟨retrieve_tfidf_sim idx q k h, pairwise_sim_top_pairs idx.fitTexts q k⟩

/-- C2 witness: a query matching no instructor falls through to the
similarity path of the `dbT` index, where the ordering invariant holds. -/
theorem C2_witness :
    matched_professors "こんにちは" idxT.professors = [] ∧
    (retrieve_tfidf "こんにちは" (some idxT) 2
        = (sim_top_pairs idxT.fitTexts "こんにちは" 2).filterMap (fun p => idxT.docs[p.1]?) ∧
     (sim_top_pairs idxT.fitTexts "こんにちは" 2).Pairwise
        (fun p r => r.2 ≤ p.2 ∧ (p.2 = r.2 → r.1 < p.1))) :=
  ⟨by decide, C2_sim_order_ties_reversed idxT "こんにちは" 2 (Or.inl (by decide))⟩

/-! ### Concrete evaluation of the similarity path on a two-document tie -/

/-- First document of the tie corpora (corpus position 0). -/
def eA : Doc := ⟨"A", "", "", "ab"⟩

/-- Second document of the tie corpora (corpus position 1). -/
def eB : Doc := ⟨"B", "", "", "ab"⟩

/-- Two documents with identical text, hence exactly equal scores. -/
def dbE : DbWrapper := ⟨[eA, eB], []⟩

/-- The index `prepare_tfidf_index` builds for `dbE`. -/
def idxE : IndexData := ⟨dbE.docs, dbE.professors, dbE.docs.map (·.text)⟩

/-- Against the corpus `["ab", "ab"]`, any query containing the 2-gram
`ab` exactly once scores 1 on both documents: the only vocabulary term
is `ab`, its smoothed idf is `ln(3/3) + 1 = 1`, and both cosine factors
normalise to 1. -/
theorem tfidfSims_pair_ab (q : String) (htf : tf ['a', 'b'] q = 1) :
    tfidfSims ["ab", "ab"] q = [1, 1] := by
  have hv : vocab ["ab", "ab"] = [['a', 'b']] := by decide
  have hdf : df ["ab", "ab"] ['a', 'b'] = 2 := by decide
  have htfd : tf ['a', 'b'] "ab" = 1 := by decide
  have hlen : (["ab", "ab"] : List String).length = 2 := rfl
  have hidf : idf ["ab", "ab"] ['a', 'b'] = 1 := by
    unfold idf
    rw [hdf, hlen]
    norm_num [Real.log_one]
  have hw : ∀ s : String, tf ['a', 'b'] s = 1 → tfidfWeight ["ab", "ab"] s ['a', 'b'] = 1 := by
    intro s hs
    unfold tfidfWeight
    rw [hs, hidf]
    norm_num
  have hdot : dotProd ["ab", "ab"] q "ab" = 1 := by
    unfold dotProd
    rw [hv]
    simp [hw q htf, hw "ab" htfd]
  have hnq : l2norm ["ab", "ab"] q = 1 := by
    unfold l2norm
    rw [hv]
    simp [hw q htf, Real.sqrt_one]
  have hnd : l2norm ["ab", "ab"] "ab" = 1 := by
    unfold l2norm
    rw [hv]
    simp [hw "ab" htfd, Real.sqrt_one]
  have hcos : cosineSim ["ab", "ab"] q "ab" = 1 := by
    unfold cosineSim
    rw [hdot, hnq, hnd]
    norm_num
  show [cosineSim ["ab", "ab"] q "ab", cosineSim ["ab", "ab"] q "ab"] = [1, 1]
  rw [hcos]

/-- With both scores exactly 1, the ranking loop returns the documents
in reverse corpus order: ascending stable argsort gives `[(0,1),(1,1)]`,
the reversal `[(1,1),(0,1)]`, so document 1 precedes document 0. -/
theorem sim_results_pair_ties (idx : IndexData) (q : String) (d0 d1 : Doc)
    (hf : idx.fitTexts = ["ab", "ab"]) (hd : idx.docs = [d0, d1])
    (htf : tf ['a', 'b'] q = 1) :
    sim_results idx q 2 = [d1, d0] := by
  have hs : tfidfSims idx.fitTexts q = [1, 1] := by
    rw [hf]
    exact tfidfSims_pair_ab q htf
  have henum : enumFromIdx 0 (tfidfSims idx.fitTexts q) = [(0, 1), (1, 1)] := by
    rw [hs]
    rfl
  have hsort : sortAsc [((0 : ℕ), (1 : ℝ)), (1, 1)] = [(0, 1), (1, 1)] := by
    simp [sortAsc, insertAsc]
  unfold sim_results sim_top_pairs
  rw [henum, hsort, hd]
  norm_num [List.filter, List.filterMap]
  rfl

/-- C2 counterexample: two distinct documents with identical text and
`k = 2`; their similarity scores are exactly equal (both 1), yet
`retrieve_tfidf` returns them in reverse corpus order `[eB, eA]`,
falsifying the claimed original-corpus-order tie-break. -/
theorem C2_counterexample :
    dbE.docs = [eA, eB] ∧ eA ≠ eB ∧
    prepare_tfidf_index dbE = some idxE ∧
    tfidfSims idxE.fitTexts "ab" = [1, 1] ∧
    retrieve_tfidf "ab" (some idxE) 2 = [eB, eA] := by
  refine ⟨rfl, by decide, rfl, tfidfSims_pair_ab "ab" (by decide), ?_⟩
  rw [retrieve_tfidf_sim idxE "ab" 2 (Or.inl (by decide))]
  exact sim_results_pair_ties idxE "ab" eA eB rfl rfl (by decide)

/-! ## Claim C6 -/

/-- Replace a document's `semester` (the spec's `period` field),
leaving every other field unchanged. -/
def setSemester (g : Doc → String) (d : Doc) : Doc :=
  { d with semester := g d }

/-- An index whose documents have rewritten period fields (the fitted
texts are untouched, since `text` is unchanged). -/
def mapSemesterIdx (g : Doc → String) (idx : IndexData) : IndexData :=
  ⟨idx.docs.map (setSemester g), idx.professors, idx.fitTexts⟩

theorem retrieve_tfidf_map_semester (g : Doc → String) (idx : IndexData) (q : String) (k : ℕ) :
    retrieve_tfidf q (some (mapSemesterIdx g idx)) k
      = (retrieve_tfidf q (some idx) k).map (setSemester g) := by
  have hfilt : ∀ m, filtered_results m (idx.docs.map (setSemester g))
      = (filtered_results m idx.docs).map (setSemester g) := by
    intro m
    unfold filtered_results
    rw [List.filter_map]
    rfl
  have hsim : sim_results (mapSemesterIdx g idx) q k
      = (sim_results idx q k).map (setSemester g) := by
    unfold sim_results mapSemesterIdx
    simp only [List.getElem?_map]
    rw [← List.map_filterMap]
  simp only [retrieve_tfidf, mapSemesterIdx]
  by_cases h1 : (matched_professors q idx.professors).isEmpty = true
  · rw [if_pos h1, if_pos h1]
    exact hsim
  · rw [if_neg h1, if_neg h1]
    rw [hfilt]
    by_cases h2 : (filtered_results (matched_professors q idx.professors) idx.docs).isEmpty = true
    · have h2L : ((filtered_results (matched_professors q idx.professors) idx.docs).map
          (setSemester g)).isEmpty = true := by
        simp only [List.isEmpty_iff, List.map_eq_nil_iff] at h2 ⊢
        exact h2
      rw [if_pos h2L, if_pos h2]
      exact hsim
    · have h2L : ¬ ((filtered_results (matched_professors q idx.professors) idx.docs).map
          (setSemester g)).isEmpty = true := by
        simp only [List.isEmpty_iff, List.map_eq_nil_iff] at h2 ⊢
        exact h2
      rw [if_neg h2L, if_neg h2]

/-- C6 (amended): `retrieve_tfidf` applies no time-slot boost — its
result is invariant, up to the same field rewriting, under arbitrary
changes of every document's period field, so a document's period can
never influence its rank. -/
theorem C6_no_time_slot_boost (g : Doc → String) (db : DbWrapper) (q : String) (k : ℕ) :
    retrieve_tfidf q (prepare_tfidf_index ⟨db.docs.map (setSemester g), db.professors⟩) k
      = (retrieve_tfidf q (prepare_tfidf_index db) k).map (setSemester g) := by
  have h1 : prepare_tfidf_index ⟨db.docs.map (setSemester g), db.professors⟩
      = some (mapSemesterIdx g ⟨db.docs, db.professors, db.docs.map (·.text)⟩) := by
    simp only [prepare_tfidf_index, mapSemesterIdx, List.map_map]
    rfl
  rw [h1, retrieve_tfidf_map_semester]
  rfl

/-! ### C6 counterexample corpus -/

/-- Document whose period field contains the digit 2 (corpus position 0). -/
def f0 : Doc := ⟨"A", "", "月2", "ab"⟩

/-- Document whose period field does not contain 2 (corpus position 1). -/
def f1 : Doc := ⟨"B", "", "月1", "ab"⟩

/-- Tie corpus with differing period fields. -/
def dbF : DbWrapper := ⟨[f0, f1], []⟩

/-- The index `prepare_tfidf_index` builds for `dbF`. -/
def idxF : IndexData := ⟨dbF.docs, dbF.professors, dbF.docs.map (·.text)⟩

/-- C6 counterexample: the query 「ab2限」 mentions period 2 and both
documents score exactly 1, with only the first document's period field
matching the hint.  Any fixed positive boost would rank that document
first (`spec_boosted_rank` returns `[f0, f1]` for every `b > 0`), but
`retrieve_tfidf` returns `[f1, f0]` — no boost is applied. -/
theorem C6_counterexample :
    containsSub "ab2限" "2限" = true ∧
    periodMatches (spec_time_slot_hint "ab2限") f0 = true ∧
    periodMatches (spec_time_slot_hint "ab2限") f1 = false ∧
    prepare_tfidf_index dbF = some idxF ∧
    retrieve_tfidf "ab2限" (some idxF) 2 = [f1, f0] ∧
    (∀ b : ℝ, 0 < b → spec_boosted_rank b idxF "ab2限" 2 = [f0, f1]) := by
  refine ⟨by decide, by decide, by decide, rfl, ?_, ?_⟩
  · rw [retrieve_tfidf_sim idxF "ab2限" 2 (Or.inl (by decide))]
    exact sim_results_pair_ties idxF "ab2限" f0 f1 rfl rfl (by decide)
  · intro b hb
    have hs : tfidfSims idxF.fitTexts "ab2限" = [1, 1] := by
      rw [show idxF.fitTexts = ["ab", "ab"] from rfl]
      exact tfidfSims_pair_ab "ab2限" (by decide)
    unfold spec_boosted_rank
    rw [hs]
    have hm0 : periodMatches (spec_time_slot_hint "ab2限") f0 = true := by decide
    have hm1 : periodMatches (spec_time_slot_hint "ab2限") f1 = false := by decide
    show ((((sortAsc (List.zipWith
        (fun (p : ℕ × ℝ) (d : Doc) =>
          (p.1, if periodMatches (spec_time_slot_hint "ab2限") d then p.2 + b else p.2))
        [(0, 1), (1, 1)] [f0, f1])).reverse).take 2).filter
        (fun p => decide (0 < p.2))).filterMap (fun p => idxF.docs[p.1]?) = [f0, f1]
    rw [show List.zipWith
        (fun (p : ℕ × ℝ) (d : Doc) =>
          (p.1, if periodMatches (spec_time_slot_hint "ab2限") d then p.2 + b else p.2))
        [(0, 1), (1, 1)] [f0, f1] = [(0, 1 + b), (1, 1)] by
      simp [List.zipWith, hm0, hm1]]
    have hsort2 : sortAsc [((0 : ℕ), 1 + b), (1, (1 : ℝ))] = [(1, 1), (0, 1 + b)] := by
      simp [sortAsc, insertAsc]
      linarith
    rw [hsort2]
    have hpos : (0 : ℝ) < 1 + b := by linarith
    norm_num [List.filter, List.filterMap, hpos]
    rfl

/-! ## Claim C5 -/

theorem mem_vocab (texts : List String) (v : List Char) (hv : v ∈ vocab texts) :
    ∃ t ∈ texts, v ∈ ngrams23 (lowerChars t) := by
  unfold vocab at hv
  rw [List.mem_dedup] at hv
  obtain ⟨l, hl, hvl⟩ := List.mem_flatten.mp hv
  obtain ⟨t, ht, rfl⟩ := List.mem_map.mp hl
  exact ⟨t, ht, hvl⟩

/-- C5: on the similarity path every returned document carries a
strictly positive cosine score, and a query sharing no character n-gram
with any fitted document returns the empty list. -/
theorem C5_positive_scores (idx : IndexData) (q : String) (k : ℕ)
    (h : matched_professors q idx.professors = []
      ∨ filtered_results (matched_professors q idx.professors) idx.docs = []) :
    (∀ d ∈ retrieve_tfidf q (some idx) k, ∃ p ∈ sim_top_pairs idx.fitTexts q k,
        idx.docs[p.1]? = some d ∧ (tfidfSims idx.fitTexts q)[p.1]? = some p.2 ∧ 0 < p.2) ∧
    ((∀ t ∈ idx.fitTexts, ∀ v ∈ ngrams23 (lowerChars q), v ∉ ngrams23 (lowerChars t)) →
      retrieve_tfidf q (some idx) k = []) := by
  constructor
  · intro d hd
    rw [retrieve_tfidf_sim idx q k h] at hd
    unfold sim_results at hd
    obtain ⟨p, hp, hdp⟩ := List.mem_filterMap.mp hd
    obtain ⟨hgs, hpos⟩ := mem_sim_top_pairs idx.fitTexts q k p hp
    exact ⟨p, hp, hdp, hgs, hpos⟩
  · intro hno
    rw [retrieve_tfidf_sim idx q k h]
    have hq0 : ∀ v ∈ vocab idx.fitTexts, tf v q = 0 := by
      intro v hv
      obtain ⟨t, ht, hvt⟩ := mem_vocab idx.fitTexts v hv
      unfold tf
      refine List.count_eq_zero.mpr ?_
      intro hmem
      exact hno t ht v hmem hvt
    have hsims0 : ∀ s ∈ tfidfSims idx.fitTexts q, s = 0 := by
      intro s hs
      unfold tfidfSims at hs
      obtain ⟨t, _, rfl⟩ := List.mem_map.mp hs
      unfold cosineSim
      have hdot0 : dotProd idx.fitTexts q t = 0 := by
        unfold dotProd
        apply List.sum_eq_zero
        intro x hx
        obtain ⟨v, hv, rfl⟩ := List.mem_map.mp hx
        unfold tfidfWeight
        rw [hq0 v hv]
        norm_num
      rw [hdot0]
      exact zero_div _
    unfold sim_results
    have hpairs : sim_top_pairs idx.fitTexts q k = [] := by
      unfold sim_top_pairs
      refine List.filter_eq_nil_iff.mpr ?_
      intro p hp
      have h1 : p ∈ enumFromIdx 0 (tfidfSims idx.fitTexts q) :=
        (mem_sortAsc p _).mp (List.mem_reverse.mp ((List.take_sublist _ _).subset hp))
      have h2 := (mem_enumFromIdx 0 _ p h1).2
      simp only [Nat.sub_zero] at h2
      have hz := hsims0 p.2 (List.getElem?_mem h2)
      simp [hz]
    rw [hpairs]
    rfl

/-- Document for the no-overlap witness. -/
def dG : Doc := ⟨"A", "佐藤", "", "ab"⟩

/-- Corpus of one document with text `ab`. -/
def dbG : DbWrapper := ⟨[dG], ["佐藤"]⟩

/-- The index `prepare_tfidf_index` builds for `dbG`. -/
def idxG : IndexData := ⟨dbG.docs, dbG.professors, dbG.docs.map (·.text)⟩

/-- C5 witness: the query `xy` matches no instructor and shares no
2- or 3-gram with the only document, so the result is empty. -/
theorem C5_witness :
    matched_professors "xy" idxG.professors = [] ∧
    (∀ t ∈ idxG.fitTexts, ∀ v ∈ ngrams23 (lowerChars "xy"), v ∉ ngrams23 (lowerChars t)) ∧
    retrieve_tfidf "xy" (some idxG) 3 = [] :=
  ⟨by decide, by decide,
   (C5_positive_scores idxG "xy" 3 (Or.inl (by decide))).2 (by decide)⟩

/-! ## Claim C8: loader characterisation -/

theorem planLine_error_iff (p : Json) : planLine p = .error () ↔ isObjJson p = false := by
  cases p <;> simp [planLine, isObjJson]

theorem critLine_error_iff (c : Json) : critLine c = .error () ↔ isObjJson c = false := by
  cases c <;> simp [critLine, isObjJson]

theorem sectionLines_error_iff (f : Json → Except Unit String)
    (hf : ∀ p, f p = .error () ↔ isObjJson p = false) (ps : List Json) :
    sectionLines f ps = .error () ↔ ∃ p ∈ ps, isObjJson p = false := by
  induction ps with
  | nil => simp [sectionLines]
  | cons p ps ih =>
    cases hfp : f p with
    | error e =>
      cases e
      have h : sectionLines f (p :: ps) = .error () := by
        unfold sectionLines
        rw [hfp]
      rw [h]
      constructor
      · intro _
        exact ⟨p, List.mem_cons_self _ _, (hf p).mp hfp⟩
      · intro _
        rfl
    | ok l =>
      have hop : isObjJson p = true := by
        cases hob : isObjJson p
        · have := (hf p).mpr hob
          rw [hfp] at this
          exact absurd this (by simp)
        · rfl
      cases hrec : sectionLines f ps with
      | error e =>
        cases e
        have h : sectionLines f (p :: ps) = .error () := by
          unfold sectionLines
          rw [hfp, hrec]
        rw [h]
        constructor
        · intro _
          obtain ⟨x, hx, hxo⟩ := ih.mp hrec
          exact ⟨x, List.mem_cons_of_mem _ hx, hxo⟩
        · intro _
          rfl
      | ok ls =>
        have h : sectionLines f (p :: ps) = .ok (l :: ls) := by
          unfold sectionLines
          rw [hfp, hrec]
        rw [h]
        constructor
        · intro hcon
          exact absurd hcon (by simp)
        · rintro ⟨x, hx, hxo⟩
          rcases List.mem_cons.mp hx with rfl | hx2
          · rw [hop] at hxo
            exact absurd hxo (by simp)
          · have h2 : sectionLines f ps = .error () := ih.mpr ⟨x, hx2, hxo⟩
            rw [hrec] at h2
            exact absurd h2 (by simp)

theorem planParts_error_iff (kvs : List (String × Json)) :
    planParts kvs = .error ()
      ↔ (match jlookup kvs "授業計画" with
         | some (.arr ps) => ps.any (fun p => !isObjJson p)
         | _ => false) = true := by
  cases hj : jlookup kvs "授業計画" with
  | none =>
    have h : planParts kvs = .ok [] := by
      unfold planParts
      rw [hj]
    rw [h]
    simp [hj]
  | some v =>
    cases v with
    | arr ps =>
      cases hsec : sectionLines planLine ps with
      | error e =>
        cases e
        have h : planParts kvs = .error () := by
          unfold planParts
          simp only [hj, hsec]
        rw [h]
        simp only [hj]
        have hany : ps.any (fun p => !isObjJson p) = true := by
          obtain ⟨x, hx, hxo⟩ := (sectionLines_error_iff planLine planLine_error_iff ps).mp hsec
          exact List.any_eq_true.mpr ⟨x, hx, by simp [hxo]⟩
        simp [hany]
      | ok ls =>
        have h : planParts kvs = .ok ("【授業計画】" :: ls) := by
          unfold planParts
          simp only [hj, hsec]
        rw [h]
        simp only [hj]
        constructor
        · intro hcon
          exact absurd hcon (by simp)
        · intro hany
          obtain ⟨x, hx, hxo⟩ := List.any_eq_true.mp hany
          have h2 : sectionLines planLine ps = .error () :=
            (sectionLines_error_iff planLine planLine_error_iff ps).mpr
              ⟨x, hx, by simpa using hxo⟩
          rw [hsec] at h2
          exact absurd h2 (by simp)
    | null =>
      have h : planParts kvs = .ok [] := by
        unfold planParts
        rw [hj]
      rw [h]
      simp [hj]
    | bool b =>
      have h : planParts kvs = .ok [] := by
        unfold planParts
        rw [hj]
      rw [h]
      simp [hj]
    | num n =>
      have h : planParts kvs = .ok [] := by
        unfold planParts
        rw [hj]
      rw [h]
      simp [hj]
    | str t =>
      have h : planParts kvs = .ok [] := by
        unfold planParts
        rw [hj]
      rw [h]
      simp [hj]
    | obj o =>
      have h : planParts kvs = .ok [] := by
        unfold planParts
        rw [hj]
      rw [h]
      simp [hj]

theorem critParts_error_iff (kvs : List (String × Json)) :
    critParts kvs = .error ()
      ↔ (match jlookup kvs "成績評価基準" with
         | some (.arr cs) => cs.any (fun c => !isObjJson c)
         | _ => false) = true := by
  cases hj : jlookup kvs "成績評価基準" with
  | none =>
    have h : critParts kvs = .ok [] := by
      unfold critParts
      rw [hj]
    rw [h]
    simp [hj]
  | some v =>
    cases v with
    | arr cs =>
      cases hsec : sectionLines critLine cs with
      | error e =>
        cases e
        have h : critParts kvs = .error () := by
          unfold critParts
          simp only [hj, hsec]
        rw [h]
        simp only [hj]
        have hany : cs.any (fun c => !isObjJson c) = true := by
          obtain ⟨x, hx, hxo⟩ := (sectionLines_error_iff critLine critLine_error_iff cs).mp hsec
          exact List.any_eq_true.mpr ⟨x, hx, by simp [hxo]⟩
        simp [hany]
      | ok ls =>
        have h : critParts kvs = .ok ("【成績評価基準】" :: ls) := by
          unfold critParts
          simp only [hj, hsec]
        rw [h]
        simp only [hj]
        constructor
        · intro hcon
          exact absurd hcon (by simp)
        · intro hany
          obtain ⟨x, hx, hxo⟩ := List.any_eq_true.mp hany
          have h2 : sectionLines critLine cs = .error () :=
            (sectionLines_error_iff critLine critLine_error_iff cs).mpr
              ⟨x, hx, by simpa using hxo⟩
          rw [hsec] at h2
          exact absurd h2 (by simp)
    | null =>
      have h : critParts kvs = .ok [] := by
        unfold critParts
        rw [hj]
      rw [h]
      simp [hj]
    | bool b =>
      have h : critParts kvs = .ok [] := by
        unfold critParts
        rw [hj]
      rw [h]
      simp [hj]
    | num n =>
      have h : critParts kvs = .ok [] := by
        unfold critParts
        rw [hj]
      rw [h]
      simp [hj]
    | str t =>
      have h : critParts kvs = .ok [] := by
        unfold critParts
        rw [hj]
      rw [h]
      simp [hj]
    | obj o =>
      have h : critParts kvs = .ok [] := by
        unfold critParts
        rw [hj]
      rw [h]
      simp [hj]

theorem processJsonItem_error_iff (it : Json) :
    processJsonItem it = .error () ↔ json_item_throws it = true := by
  cases it with
  | null => simp [processJsonItem, json_item_throws]
  | bool b => simp [processJsonItem, json_item_throws]
  | num n => simp [processJsonItem, json_item_throws]
  | str s => cases hc : containsSub s "科目名" <;> simp [processJsonItem, json_item_throws, hc]
  | arr es =>
    cases hc : es.any (fun e => isStrEq e "科目名") <;>
      simp [processJsonItem, json_item_throws, hc]
  | obj kvs =>
    cases hm : jmem kvs "科目名" with
    | false => simp [processJsonItem, json_item_throws, hm]
    | true =>
      cases hprof : (jlookup kvs "教授名").getD (.str "") with
      | str s =>
        cases hplan : planParts kvs with
        | error e =>
          cases e
          have hpa := (planParts_error_iff kvs).mp hplan
          simp [processJsonItem, json_item_throws, hm, hprof, hplan, hpa]
        | ok p6 =>
          have hpa : (match jlookup kvs "授業計画" with
              | some (.arr ps) => ps.any (fun p => !isObjJson p)
              | _ => false) = false := by
            cases hx : (match jlookup kvs "授業計画" with
                | some (.arr ps) => ps.any (fun p => !isObjJson p)
                | _ => false)
            · rfl
            · have h2 := (planParts_error_iff kvs).mpr hx
              rw [hplan] at h2
              exact absurd h2 (by simp)
          cases hcrit : critParts kvs with
          | error e =>
            cases e
            have hca := (critParts_error_iff kvs).mp hcrit
            simp [processJsonItem, json_item_throws, hm, hprof, hplan, hcrit, hpa, hca]
          | ok p7 =>
            have hca : (match jlookup kvs "成績評価基準" with
                | some (.arr cs) => cs.any (fun c => !isObjJson c)
                | _ => false) = false := by
              cases hx : (match jlookup kvs "成績評価基準" with
                  | some (.arr cs) => cs.any (fun c => !isObjJson c)
                  | _ => false)
              · rfl
              · have h2 := (critParts_error_iff kvs).mpr hx
                rw [hcrit] at h2
                exact absurd h2 (by simp)
            simp [processJsonItem, json_item_throws, hm, hprof, hplan, hcrit, hpa, hca]
      | null => simp [processJsonItem, json_item_throws, hm, hprof]
      | bool b => simp [processJsonItem, json_item_throws, hm, hprof]
      | num n => simp [processJsonItem, json_item_throws, hm, hprof]
      | arr es => simp [processJsonItem, json_item_throws, hm, hprof]
      | obj o => simp [processJsonItem, json_item_throws, hm, hprof]

theorem processJsonItem_some_usable (it : Json) (d : Doc)
    (h : processJsonItem it = .ok (some d)) : json_item_usable it = true := by
  cases it with
  | null => simp [processJsonItem] at h
  | bool b => simp [processJsonItem] at h
  | num n => simp [processJsonItem] at h
  | str s => cases hc : containsSub s "科目名" <;> simp [processJsonItem, hc] at h
  | arr es => cases hc : es.any (fun e => isStrEq e "科目名") <;> simp [processJsonItem, hc] at h
  | obj kvs =>
    cases hm : jmem kvs "科目名" with
    | false => simp [processJsonItem, hm] at h
    | true => simp [json_item_usable, hm]

theorem processJsonItem_ok_none_usable (it : Json)
    (h : processJsonItem it = .ok none) : json_item_usable it = false := by
  cases it with
  | null => simp [processJsonItem] at h
  | bool b => simp [json_item_usable]
  | num n => simp [json_item_usable]
  | str s => simp [json_item_usable]
  | arr es => simp [json_item_usable]
  | obj kvs =>
    cases hm : jmem kvs "科目名" with
    | false => simp [json_item_usable, hm]
    | true =>
      exfalso
      cases hprof : (jlookup kvs "教授名").getD (.str "") with
      | str s =>
        cases hplan : planParts kvs with
        | error e => simp [processJsonItem, hm, hprof, hplan] at h
        | ok p6 =>
          cases hcrit : critParts kvs with
          | error e => simp [processJsonItem, hm, hprof, hplan, hcrit] at h
          | ok p7 => simp [processJsonItem, hm, hprof, hplan, hcrit] at h
      | null => simp [processJsonItem, hm, hprof] at h
      | bool b => simp [processJsonItem, hm, hprof] at h
      | num n => simp [processJsonItem, hm, hprof] at h
      | arr es => simp [processJsonItem, hm, hprof] at h
      | obj o => simp [processJsonItem, hm, hprof] at h

theorem processJsonItems_error_iff (items : List Json) :
    processJsonItems items = .error () ↔ ∃ it ∈ items, json_item_throws it = true := by
  induction items with
  | nil => simp [processJsonItems]
  | cons it its ih =>
    cases hE : processJsonItem it with
    | error e =>
      cases e
      have h : processJsonItems (it :: its) = .error () := by
        unfold processJsonItems
        simp only [hE]
      rw [h]
      constructor
      · intro _
        exact ⟨it, List.mem_cons_self _ _, (processJsonItem_error_iff it).mp hE⟩
      · intro _
        rfl
    | ok o =>
      have hth : json_item_throws it = false := by
        cases hx : json_item_throws it
        · rfl
        · have h2 := (processJsonItem_error_iff it).mpr hx
          rw [hE] at h2
          exact absurd h2 (by simp)
      cases o with
      | none =>
        have h : processJsonItems (it :: its) = processJsonItems its := by
          conv_lhs => rw [processJsonItems.eq_def]
          simp only [hE]
        rw [h, ih]
        constructor
        · rintro ⟨x, hx, hxt⟩
          exact ⟨x, List.mem_cons_of_mem _ hx, hxt⟩
        · rintro ⟨x, hx, hxt⟩
          rcases List.mem_cons.mp hx with rfl | hx2
          · rw [hth] at hxt
            exact absurd hxt (by simp)
          · exact ⟨x, hx2, hxt⟩
      | some d =>
        cases hrec : processJsonItems its with
        | error e =>
          cases e
          have h : processJsonItems (it :: its) = .error () := by
            unfold processJsonItems
            simp only [hE, hrec]
          rw [h]
          constructor
          · intro _
            obtain ⟨x, hx, hxt⟩ := ih.mp hrec
            exact ⟨x, List.mem_cons_of_mem _ hx, hxt⟩
          · intro _
            rfl
        | ok ds =>
          have h : processJsonItems (it :: its) = .ok (d :: ds) := by
            unfold processJsonItems
            simp only [hE, hrec]
          rw [h]
          constructor
          · intro hcon
            exact absurd hcon (by simp)
          · rintro ⟨x, hx, hxt⟩
            rcases List.mem_cons.mp hx with rfl | hx2
            · rw [hth] at hxt
              exact absurd hxt (by simp)
            · have h2 := ih.mpr ⟨x, hx2, hxt⟩
              rw [hrec] at h2
              exact absurd h2 (by simp)

theorem processJsonItems_ok_empty_iff (items : List Json) (docs : List Doc)
    (h : processJsonItems items = .ok docs) :
    docs = [] ↔ ∀ it ∈ items, json_item_usable it = false := by
  induction items generalizing docs with
  | nil =>
    have h2 : docs = [] := by
      unfold processJsonItems at h
      injection h with h3
      exact h3.symm
    simp [h2]
  | cons it its ih =>
    cases hE : processJsonItem it with
    | error e =>
      exfalso
      unfold processJsonItems at h
      simp only [hE] at h
      exact absurd h (by simp)
    | ok o =>
      cases o with
      | none =>
        have husable := processJsonItem_ok_none_usable it hE
        unfold processJsonItems at h
        simp only [hE] at h
        rw [ih docs h]
        simp [List.forall_mem_cons, husable]
      | some d =>
        cases hrec : processJsonItems its with
        | error e =>
          exfalso
          unfold processJsonItems at h
          simp only [hE, hrec] at h
          exact absurd h (by simp)
        | ok ds =>
          have husable := processJsonItem_some_usable it d hE
          unfold processJsonItems at h
          simp only [hE, hrec] at h
          have hdocs : docs = d :: ds := by
            injection h with h3
            exact h3.symm
          subst hdocs
          simp [List.forall_mem_cons, husable]

theorem processCsvRow_isSome_iff (jarr : String → Option (List Json))
    (jobj : String → Option (List (String × Json))) (row : List (String × String)) :
    (processCsvRow jarr jobj row).isSome = true ↔ slookup (normRow row) "科目名" ≠ "" := by
  unfold processCsvRow
  by_cases hc : slookup (normRow row) "科目名" = ""
  · simp [hc]
  · simp [hc]

/-- C8: each loader returns an invalid result (`none`) exactly when the
source path does not exist, the content cannot be read/parsed as the
expected structured format (for JSON: parse failure, a non-list root,
or an ill-typed record the Python code raises on), or parsing yields
zero usable documents; otherwise it returns a wrapper holding at least
one document. -/
theorem C8_loaders_none_iff (jsrc : Option (Option Json))
    (csrc : Option (Option (List (List (String × String)))))
    (jarr : String → Option (List Json)) (jobj : String → Option (List (String × Json))) :
    ((load_course_db jsrc).isSome = true ↔
      ∃ items, jsrc = some (some (.arr items)) ∧
        (∀ it ∈ items, json_item_throws it = false) ∧
        (∃ it ∈ items, json_item_usable it = true)) ∧
    (∀ w, load_course_db jsrc = some w → w.docs ≠ []) ∧
    ((load_course_db_from_csv jarr jobj csrc).isSome = true ↔
      ∃ rows, csrc = some (some rows) ∧ ∃ r ∈ rows, slookup (normRow r) "科目名" ≠ "") ∧
    (∀ w, load_course_db_from_csv jarr jobj csrc = some w → w.docs ≠ []) := by
  refine ⟨?_, ?_, ?_, ?_⟩
  · -- JSON isSome characterisation
    match jsrc with
    | none => simp [load_course_db]
    | some none => simp [load_course_db]
    | some (some (.null)) => simp [load_course_db]
    | some (some (.bool b)) => simp [load_course_db]
    | some (some (.num n)) => simp [load_course_db]
    | some (some (.str s)) => simp [load_course_db]
    | some (some (.obj o)) => simp [load_course_db]
    | some (some (.arr items)) =>
      cases hp : processJsonItems items with
      | error e =>
        cases e
        have h : load_course_db (some (some (.arr items))) = none := by
          unfold load_course_db
          simp only [hp]
        rw [h]
        simp only [Option.isSome_none]
        constructor
        · intro hcon
          exact absurd hcon (by simp)
        · rintro ⟨items2, heq, hnothrow, _⟩
          have hit : items = items2 := by
            simp only [Option.some.injEq, Json.arr.injEq] at heq
            exact heq
          subst hit
          obtain ⟨x, hx, hxt⟩ := (processJsonItems_error_iff items).mp hp
          have := hnothrow x hx
          rw [hxt] at this
          exact absurd this (by simp)
      | ok docs =>
        have hnothrow : ∀ it ∈ items, json_item_throws it = false := by
          intro x hx
          cases hxt : json_item_throws x
          · rfl
          · have h2 := (processJsonItems_error_iff items).mpr ⟨x, hx, hxt⟩
            rw [hp] at h2
            exact absurd h2 (by simp)
        by_cases he : docs.isEmpty = true
        · have h : load_course_db (some (some (.arr items))) = none := by
            unfold load_course_db
            simp only [hp, if_pos he]
          rw [h]
          simp only [Option.isSome_none]
          constructor
          · intro hcon
            exact absurd hcon (by simp)
          · rintro ⟨items2, heq, _, hex⟩
            have hit : items = items2 := by
              simp only [Option.some.injEq, Json.arr.injEq] at heq
              exact heq
            subst hit
            obtain ⟨x, hx, hxu⟩ := hex
            have hall := (processJsonItems_ok_empty_iff items docs hp).mp
              (List.isEmpty_iff.mp he)
            have := hall x hx
            rw [hxu] at this
            exact absurd this (by simp)
        · have h : load_course_db (some (some (.arr items)))
              = some { docs := docs, professors := collectProfs docs } := by
            unfold load_course_db
            simp only [hp, if_neg he]
          rw [h]
          simp only [Option.isSome_some]
          constructor
          · intro _
            refine ⟨items, rfl, hnothrow, ?_⟩
            by_contra hno
            push_neg at hno
            have hall : ∀ it ∈ items, json_item_usable it = false := by
              intro x hx
              cases hxu : json_item_usable x
              · rfl
              · exact absurd hxu (hno x hx)
            have := (processJsonItems_ok_empty_iff items docs hp).mpr hall
            rw [List.isEmpty_iff] at he
            exact he this
          · intro _
            trivial
  · -- JSON: a returned wrapper is non-empty
    intro w hw
    match jsrc with
    | none => simp [load_course_db] at hw
    | some none => simp [load_course_db] at hw
    | some (some (.null)) => simp [load_course_db] at hw
    | some (some (.bool b)) => simp [load_course_db] at hw
    | some (some (.num n)) => simp [load_course_db] at hw
    | some (some (.str s)) => simp [load_course_db] at hw
    | some (some (.obj o)) => simp [load_course_db] at hw
    | some (some (.arr items)) =>
      cases hp : processJsonItems items with
      | error e =>
        unfold load_course_db at hw
        simp only [hp] at hw
        exact absurd hw (by simp)
      | ok docs =>
        by_cases he : docs.isEmpty = true
        · unfold load_course_db at hw
          simp only [hp, if_pos he] at hw
          exact absurd hw (by simp)
        · unfold load_course_db at hw
          simp only [hp, if_neg he] at hw
          have hwd : w.docs = docs := by
            injection hw with h1
            rw [← h1]
          rw [hwd]
          intro hcon
          rw [hcon] at he
          exact he rfl
  · -- CSV isSome characterisation
    match csrc with
    | none => simp [load_course_db_from_csv]
    | some none => simp [load_course_db_from_csv]
    | some (some rows) =>
      by_cases he : (rows.filterMap (processCsvRow jarr jobj)).isEmpty = true
      · have h : load_course_db_from_csv jarr jobj (some (some rows)) = none := by
          unfold load_course_db_from_csv
          simp only [if_pos he]
        rw [h]
        simp only [Option.isSome_none]
        constructor
        · intro hcon
          exact absurd hcon (by simp)
        · rintro ⟨rows2, heq, r, hr, hne⟩
          have hrr : rows = rows2 := by
            simp only [Option.some.injEq] at heq
            exact heq
          subst hrr
          rw [List.isEmpty_iff, List.filterMap_eq_nil_iff] at he
          have h3 := he r hr
          have h4 := (processCsvRow_isSome_iff jarr jobj r).mpr hne
          rw [h3] at h4
          exact absurd h4 (by simp)
      · have h : load_course_db_from_csv jarr jobj (some (some rows))
            = some { docs := rows.filterMap (processCsvRow jarr jobj),
                     professors := collectProfs (rows.filterMap (processCsvRow jarr jobj)) } := by
          unfold load_course_db_from_csv
          simp only [if_neg he]
        rw [h]
        simp only [Option.isSome_some]
        constructor
        · intro _
          refine ⟨rows, rfl, ?_⟩
          rw [List.isEmpty_iff] at he
          rcases hne : rows.filterMap (processCsvRow jarr jobj) with _ | ⟨d, ds⟩
          · exact absurd hne he
          · have hd : d ∈ rows.filterMap (processCsvRow jarr jobj) := by
              rw [hne]
              exact List.mem_cons_self _ _
            obtain ⟨r, hr, hrd⟩ := List.mem_filterMap.mp hd
            refine ⟨r, hr, ?_⟩
            have : (processCsvRow jarr jobj r).isSome = true := by
              rw [hrd]
              rfl
            exact (processCsvRow_isSome_iff jarr jobj r).mp this
        · intro _
          trivial
  · -- CSV: a returned wrapper is non-empty
    intro w hw
    match csrc with
    | none => simp [load_course_db_from_csv] at hw
    | some none => simp [load_course_db_from_csv] at hw
    | some (some rows) =>
      by_cases he : (rows.filterMap (processCsvRow jarr jobj)).isEmpty = true
      · unfold load_course_db_from_csv at hw
        simp only [if_pos he] at hw
        exact absurd hw (by simp)
      · unfold load_course_db_from_csv at hw
        simp only [if_neg he] at hw
        have hwd : w.docs = rows.filterMap (processCsvRow jarr jobj) := by
          injection hw with h1
          rw [← h1]
        rw [hwd]
        intro hcon
        rw [hcon] at he
        exact he rfl
